import Mathlib

/-!
Shallow embedding of `src/browser/Decorations/BufferDecorationRenderer.ts`
(class `BufferDecorationRenderer`) and proofs about its coalesced refresh
scheduling, element geometry, visibility rules and the decoration-to-element
map.  All definitions are translated from the TypeScript source; definitions
whose doc comment starts with "Modelled from the spec:" embed behaviour of
external collaborators (decoration registry, markers) that is not part of
`src/` and is described only at its interface boundary in the specification.
-/

namespace BufferDecorationRenderer

/-! ### Coalesced refresh scheduling (`_queueRefresh` and its frame callback)

The field `_animationFrame : number | undefined` holds the id returned by
`window.requestAnimationFrame` while a callback is pending.  `registered`
counts calls to `requestAnimationFrame` and `bodyRuns` counts executions of
`refreshDecorations` by the frame callback, so that scheduling behaviour is
observable in the model. -/

structure SchedState where
  animationFrame : Option Nat
  nextRafId : Nat
  registered : Nat
  bodyRuns : Nat
deriving DecidableEq, Repr

def schedInit : SchedState :=
  { animationFrame := none, nextRafId := 0, registered := 0, bodyRuns := 0 }

/-- Embedding of `_queueRefresh`: if `this._animationFrame !== undefined`
return; otherwise register a next-frame callback and store its id. -/
def queueRefresh (s : SchedState) : SchedState :=
  match s.animationFrame with
  | some _ => s
  | none =>
      { s with
        animationFrame := some s.nextRafId
        nextRafId := s.nextRafId + 1
        registered := s.registered + 1 }

/-- One execution of the refresh body (`refreshDecorations`) during which
`reentrant` calls to `_queueRefresh` are made from inside the body (for
example by a registration side effect). -/
def runBody (reentrant : Nat) (s : SchedState) : SchedState :=
  queueRefresh^[reentrant] { s with bodyRuns := s.bodyRuns + 1 }

/-- Embedding of the frame callback registered by `_queueRefresh` in the
source: it runs `this.refreshDecorations();` first and only afterwards sets
`this._animationFrame = undefined;`.  Re-entrant requests therefore occur
while `_animationFrame` is still set. -/
def fireFrame (reentrant : Nat) (s : SchedState) : SchedState :=
  { runBody reentrant s with animationFrame := none }

/-- The frame callback as the specification words it: clear the pending
marker before running the refresh body, so a request made from within the
body registers a fresh callback.  Kept separate from `fireFrame`, which
embeds the source, so the two can be compared. -/
def specFireFrame (reentrant : Nat) (s : SchedState) : SchedState :=
  runBody reentrant { s with animationFrame := none }

/-! ### Element geometry and style (`_createElement`, `_refreshStyle`)

CSS inline styles are modelled by the fields written by the source:
`display` is the literal string written to `element.style.display` (the
empty string is the initial, unset value), `left`/`right` are the pixel
offsets with `none` standing for the empty string `''`. -/

inductive Anchor where
  | left
  | right
deriving DecidableEq, Repr

structure DecorationOptions where
  width : Option Int := none
  height : Option Int := none
  x : Option Int := none
  anchor : Option Anchor := none
deriving DecidableEq, Repr

structure ElementStyle where
  width : Int := 0
  height : Int := 0
  top : Int := 0
  lineHeight : Int := 0
  display : String := ""
  left : Option Int := none
  right : Option Int := none
deriving DecidableEq, Repr

/-- Viewport and dimension inputs read by the renderer:
`_renderService.dimensions.actualCellWidth/Height`, `_bufferService.cols`,
`_bufferService.rows` and `_bufferService.buffers.active.ydisp`. -/
structure RenderEnv where
  actualCellWidth : Int
  actualCellHeight : Int
  cols : Int
  rows : Int
  ydisp : Int
deriving DecidableEq, Repr

/-- JavaScript `v || d` applied to an optional number: `undefined` and `0`
are both falsy, so both select the default `d`. -/
def orDefault (v : Option Int) (d : Int) : Int :=
  match v with
  | none => d
  | some x => if x = 0 then d else x

/-- The pixel-size formula exactly as the specification words it:
`(value ?? 1) * cellSize`, where `??` substitutes the default only for an
absent value, never for `0`.  Kept separate from the embedding of the
source so the two can be compared. -/
def specPixelSize (v : Option Int) (cellSize : Int) : Int :=
  v.getD 1 * cellSize

/-- Embedding of `_createElement`.  Width and height use `options.width || 1`
and `options.height || 1`; `x` is `options.x ?? 0`; the element is marked
hidden when `x && x > cols`; the anchor test is
`(options.anchor || 'left') === 'right'` and the offset written is
`x ? (x * actualCellWidth) + px : ''`. -/
def createElement (env : RenderEnv) (markerLine : Int) (options : DecorationOptions) :
    ElementStyle :=
  let e0 : ElementStyle :=
    { width := orDefault options.width 1 * env.actualCellWidth
      height := orDefault options.height 1 * env.actualCellHeight
      top := (markerLine - env.ydisp) * env.actualCellHeight
      lineHeight := env.actualCellHeight }
  let x := options.x.getD 0
  let e1 := if x ≠ 0 ∧ x > env.cols then { e0 with display := "none" } else e0
  if options.anchor.getD Anchor.left = Anchor.right then
    { e1 with right := if x ≠ 0 then some (x * env.actualCellWidth) else none }
  else
    { e1 with left := if x ≠ 0 then some (x * env.actualCellWidth) else none }

/-- Embedding of `_refreshStyle`: recompute
`line = marker.line - buffers.active.ydisp`; if `line < 0 || line >= rows`
hide the element, otherwise set its top offset and make it hidden exactly
when `_altBufferIsActive`, visible (`'block'`) otherwise. -/
def refreshStyle (env : RenderEnv) (altBufferIsActive : Bool) (markerLine : Int)
    (e : ElementStyle) : ElementStyle :=
  let line := markerLine - env.ydisp
  if line < 0 ∨ line ≥ env.rows then
    { e with display := "none" }
  else
    { e with
      top := line * env.actualCellHeight
      display := if altBufferIsActive then "none" else "block" }

/-- The display value `_refreshStyle` leaves on an element, which depends
only on the line, the viewport and the alt-buffer flag, never on the
element's previous style. -/
def displayAfterRefresh (env : RenderEnv) (altBufferIsActive : Bool) (markerLine : Int) :
    String :=
  if markerLine - env.ydisp < 0 ∨ markerLine - env.ydisp ≥ env.rows then "none"
  else if altBufferIsActive then "none" else "block"

/-! ### Renderer state

The renderer's mutable state together with the external collaborators it
observes.  `decorationElements` is the `Map<IInternalDecoration, HTMLElement>`
keyed by decoration identity (here a numeric id); `elements` records every
`HTMLElement` ever created (an element detached from the container still
exists); `containerChildren` is the child list of `_container`;
`elementSlot` records the `decoration.element` back references written by
`_renderDecoration`; `wired` records the decorations whose
`onDispose`/`marker.onDispose` listeners have been installed;
`disposed`/`markerDisposed`/`disposeFired` model the external dispose-once
events; `live` is the registry's insertion-ordered set of live
decorations. -/

structure Decoration where
  id : Nat
  markerLine : Int
  options : DecorationOptions
deriving DecidableEq, Repr

structure RState where
  env : RenderEnv
  altBufferIsActive : Bool
  live : List Decoration
  decorationElements : List (Nat × Nat)
  elements : List (Nat × ElementStyle)
  containerChildren : List Nat
  elementSlot : List (Nat × Nat)
  wired : List Nat
  disposed : List Nat
  markerDisposed : List Nat
  disposeFired : List (Nat × Nat)
  nextElem : Nat
deriving DecidableEq, Repr

/-- Lookup in an association list keyed by `Nat`, mirroring `Map.get`. -/
def alookup {α : Type} : List (Nat × α) → Nat → Option α
  | [], _ => none
  | (k, v) :: rest, d => if k = d then some v else alookup rest d

/-- Deletion from an association list, mirroring `Map.delete`. -/
def aerase {α : Type} (l : List (Nat × α)) (k : Nat) : List (Nat × α) :=
  l.filter fun p => p.1 != k

/-- Insertion or replacement in an association list, mirroring `Map.set`. -/
def aset {α : Type} (l : List (Nat × α)) (k : Nat) (v : α) : List (Nat × α) :=
  (k, v) :: aerase l k

/-- Apply `f` to the element stored under id `k`, mirroring an in-place
style mutation of the `HTMLElement` with that identity. -/
def updateElement (l : List (Nat × ElementStyle)) (k : Nat)
    (f : ElementStyle → ElementStyle) : List (Nat × ElementStyle) :=
  l.map fun p => if p.1 = k then (p.1, f p.2) else p

def liveIds (s : RState) : List Nat :=
  s.live.map (·.id)

def mapDom (s : RState) : List Nat :=
  s.decorationElements.map (·.1)

/-- Embedding of `_removeDecoration`:
`this._decorationElements.get(decoration)?.remove();` detaches the mapped
element from the container if the map has an entry, and
`this._decorationElements.delete(decoration);` removes the entry.  Nothing
else is touched: in particular `decoration.element` is not cleared and the
detached `HTMLElement` keeps existing. -/
def removeDecoration (dId : Nat) (s : RState) : RState :=
  match alookup s.decorationElements dId with
  | some eId =>
      { s with
        containerChildren := s.containerChildren.filter fun e => e != eId
        decorationElements := aerase s.decorationElements dId }
  | none => { s with decorationElements := aerase s.decorationElements dId }

/-- Modelled from the spec: decoration disposal.  The decoration object and
its registry live outside `src/` (`common/services`); per the specification
the "disposed" signal fires once, disposal removes the decoration from the
registry's live set, and the registry's decoration-removed notification —
as well as the `decoration.onDispose` listener installed by
`_renderDecoration` when an element was bound — invoke `_removeDecoration`
directly. -/
def disposeDecoration (dId : Nat) (s : RState) : RState :=
  if dId ∈ s.disposed then s
  else
    let s1 :=
      { s with
        disposed := dId :: s.disposed
        live := s.live.filter fun d => d.id != dId
        disposeFired := aset s.disposeFired dId ((alookup s.disposeFired dId).getD 0 + 1) }
    let s2 := if dId ∈ s.wired then removeDecoration dId s1 else s1
    removeDecoration dId s2

/-- Modelled from the spec: marker disposal.  A marker signals its
invalidation once; `_renderDecoration` wires
`decoration.marker.onDispose(() => decoration.dispose())` at element
creation time, so a disposed marker disposes its decoration exactly when
the wiring is installed. -/
def disposeMarker (dId : Nat) (s : RState) : RState :=
  if dId ∈ s.markerDisposed then s
  else
    let s1 := { s with markerDisposed := dId :: s.markerDisposed }
    if dId ∈ s1.wired then disposeDecoration dId s1 else s1

/-- Embedding of `_renderDecoration`: if the map has no element for the
decoration, create one with `_createElement`, install the dispose wiring,
write the `decoration.element` back reference, insert the element into the
map and append it to the container; in either case run `_refreshStyle` on
the bound element.  (The `onRenderEmitter.fire(element)` notification has
no effect on renderer state and is not modelled.) -/
def renderDecoration (s : RState) (d : Decoration) : RState :=
  match alookup s.decorationElements d.id with
  | some eId =>
      { s with
        elements :=
          updateElement s.elements eId (refreshStyle s.env s.altBufferIsActive d.markerLine) }
  | none =>
      let eId := s.nextElem
      let s1 :=
        { s with
          wired := d.id :: s.wired
          elementSlot := aset s.elementSlot d.id eId
          decorationElements := (d.id, eId) :: s.decorationElements
          elements := (eId, createElement s.env d.markerLine d.options) :: s.elements
          containerChildren := s.containerChildren ++ [eId]
          nextElem := eId + 1 }
      { s1 with
        elements :=
          updateElement s1.elements eId (refreshStyle s1.env s1.altBufferIsActive d.markerLine) }

/-- Embedding of `refreshDecorations`: walk the registry's decorations in
order and render each one. -/
def refreshDecorations (s : RState) : RState :=
  s.live.foldl renderDecoration s

/-- External events the constructor subscribes to, plus the frame callback
running the refresh body.  `register` carries the decoration the registry
created; decorations are fresh objects, modelled by an unused identity. -/
inductive REvent where
  | register (d : Decoration)
  | disposeDecor (dId : Nat)
  | disposeMarker (dId : Nat)
  | refresh
  | bufferActivate (alt : Bool)
  | setYdisp (y : Int)
deriving DecidableEq, Repr

/-- One event step.  `bufferActivate` is the only event that recomputes
`_altBufferIsActive` (the `onBufferActivate` handler); `setYdisp` models a
scroll of the active buffer; `refresh` is the coalesced frame callback
executing `refreshDecorations`. -/
def stepEvent (s : RState) (e : REvent) : RState :=
  match e with
  | .register d =>
      if d.id ∈ liveIds s ∨ d.id ∈ s.disposed then s
      else { s with live := s.live ++ [d] }
  | .disposeDecor dId => disposeDecoration dId s
  | .disposeMarker dId => disposeMarker dId s
  | .refresh => refreshDecorations s
  | .bufferActivate alt => { s with altBufferIsActive := alt }
  | .setYdisp y => { s with env := { s.env with ydisp := y } }

/-- The renderer's state right after construction: empty map, empty
container, no decorations registered yet. -/
def initState (env : RenderEnv) : RState :=
  { env := env
    altBufferIsActive := false
    live := []
    decorationElements := []
    elements := []
    containerChildren := []
    elementSlot := []
    wired := []
    disposed := []
    markerDisposed := []
    disposeFired := []
    nextElem := 0 }

def runEvents (s : RState) (es : List REvent) : RState :=
  es.foldl stepEvent s

/-- Well-formedness of a renderer state: live decorations have distinct
identities, map keys are distinct, map values are distinct created-element
ids below the creation counter, every element id in existence is below the
counter, and every mapped element exists. -/
def WF (s : RState) : Prop :=
  (liveIds s).Nodup ∧
  (mapDom s).Nodup ∧
  (s.decorationElements.map (·.2)).Nodup ∧
  (∀ p ∈ s.decorationElements, p.2 < s.nextElem) ∧
  (∀ q ∈ s.elements, q.1 < s.nextElem) ∧
  (∀ p ∈ s.decorationElements, alookup s.elements p.2 ≠ none)

instance (s : RState) : Decidable (WF s) := by
  unfold WF
  infer_instance

/-- Mapped decorations are live (the map-domain half of the map
invariant). -/
def MapLive (s : RState) : Prop :=
  ∀ k ∈ mapDom s, k ∈ liveIds s

/-- The style `_refreshStyle` leaves behind for a given line: the display
value is `displayAfterRefresh` and, inside the viewport, the top offset is
`line * actualCellHeight`. -/
def RefreshedAt (env : RenderEnv) (altBufferIsActive : Bool) (markerLine : Int)
    (st : ElementStyle) : Prop :=
  st.display = displayAfterRefresh env altBufferIsActive markerLine ∧
  (¬(markerLine - env.ydisp < 0 ∨ markerLine - env.ydisp ≥ env.rows) →
    st.top = (markerLine - env.ydisp) * env.actualCellHeight)

/-- Observation helper: the style of the element currently bound to the
decoration with id `dId`, when the map has an entry for it. -/
def boundStyle (s : RState) (dId : Nat) : Option ElementStyle :=
  match alookup s.decorationElements dId with
  | some eId => alookup s.elements eId
  | none => none

/-- A sample viewport used by the concrete instantiations below. -/
def sampleEnv : RenderEnv :=
  { actualCellWidth := 2, actualCellHeight := 3, cols := 10, rows := 5, ydisp := 0 }

/-- A sample decoration anchored to line 1 with default options. -/
def sampleDecoration : Decoration :=
  { id := 0, markerLine := 1, options := {} }

/-- A renderer state with one registered, not yet rendered decoration. -/
def sampleRegistered : RState :=
  { initState sampleEnv with live := [sampleDecoration] }

/-- The same state while the alternate buffer is active. -/
def sampleAlt : RState :=
  { sampleRegistered with altBufferIsActive := true }

/-- A renderer state in which the sample decoration is bound to element 0
by a refresh pass. -/
def sampleBound : RState :=
  refreshDecorations sampleRegistered

/-! ### Scheduler lemmas -/

theorem queueRefresh_of_pending (s : SchedState) (h : s.animationFrame ≠ none) :
    queueRefresh s = s := by
  unfold queueRefresh
  cases hs : s.animationFrame with
  | none => exact absurd hs h
  | some a => rfl

theorem iterate_queueRefresh_of_pending (n : Nat) (s : SchedState)
    (h : s.animationFrame ≠ none) : queueRefresh^[n] s = s := by
  induction n with
  | zero => rfl
  | succ k ih => rw [Function.iterate_succ_apply, queueRefresh_of_pending s h, ih]

theorem runBody_of_pending (n : Nat) (s : SchedState) (h : s.animationFrame ≠ none) :
    runBody n s = { s with bodyRuns := s.bodyRuns + 1 } :=
  iterate_queueRefresh_of_pending n { s with bodyRuns := s.bodyRuns + 1 } h

/-- C1 counterexample: starting from the constructed state, one refresh
request schedules a callback; when that callback fires with one
refresh request issued from inside the refresh body, the source's callback
leaves no pending callback behind (the re-entrant request was dropped, zero
future executions scheduled), whereas the specification's clear-first rule
would leave exactly one. -/
theorem C1_counterexample :
    (fireFrame 1 (queueRefresh schedInit)).animationFrame = none ∧
    (fireFrame 1 (queueRefresh schedInit)).registered
      = (queueRefresh schedInit).registered ∧
    (specFireFrame 1 (queueRefresh schedInit)).animationFrame ≠ none ∧
    (specFireFrame 1 (queueRefresh schedInit)).registered
      = (queueRefresh schedInit).registered + 1 := by
  decide

/-- C1 amended: the frame callback clears the pending marker only after
running the refresh body, so every refresh request made from inside the
body is absorbed as a no-op: zero additional future executions are
scheduled, no matter how many re-entrant requests are made, and afterwards
no callback is pending. -/
theorem C1_reentrant_requests_dropped (n : Nat) (s : SchedState)
    (h : s.animationFrame ≠ none) :
    (fireFrame n s).animationFrame = none ∧
    (fireFrame n s).registered = s.registered ∧
    (fireFrame n s).bodyRuns = s.bodyRuns + 1 := by
  unfold fireFrame
  rw [runBody_of_pending n s h]
  exact ⟨rfl, rfl, rfl⟩

theorem C1_reentrant_requests_dropped_witness :
    (queueRefresh schedInit).animationFrame ≠ none ∧
    ((fireFrame 2 (queueRefresh schedInit)).animationFrame = none ∧
     (fireFrame 2 (queueRefresh schedInit)).registered
        = (queueRefresh schedInit).registered ∧
     (fireFrame 2 (queueRefresh schedInit)).bodyRuns
        = (queueRefresh schedInit).bodyRuns + 1) :=
  ⟨by decide, C1_reentrant_requests_dropped 2 (queueRefresh schedInit) (by decide)⟩

/-- C4: with no callback pending, calling `_queueRefresh` N ≥ 1 times
synchronously registers exactly one next-frame callback, runs the refresh
body zero times synchronously, and when the frame fires the body executes
exactly once; any request arriving while a callback is pending is a
no-op. -/
theorem C4_coalescing (n : Nat) (s : SchedState) (hn : 1 ≤ n)
    (h : s.animationFrame = none) :
    (queueRefresh^[n] s).registered = s.registered + 1 ∧
    (queueRefresh^[n] s).animationFrame ≠ none ∧
    (queueRefresh^[n] s).bodyRuns = s.bodyRuns ∧
    (fireFrame 0 (queueRefresh^[n] s)).bodyRuns = s.bodyRuns + 1 ∧
    (fireFrame 0 (queueRefresh^[n] s)).animationFrame = none ∧
    ∀ t : SchedState, t.animationFrame ≠ none → queueRefresh t = t := by
  obtain ⟨k, rfl⟩ : ∃ k, n = k + 1 := ⟨n - 1, (Nat.succ_pred_eq_of_pos hn).symm⟩
  have hq : queueRefresh s =
      { s with
        animationFrame := some s.nextRafId
        nextRafId := s.nextRafId + 1
        registered := s.registered + 1 } := by
    unfold queueRefresh
    rw [h]
  rw [Function.iterate_succ_apply, hq,
    iterate_queueRefresh_of_pending k _ (by simp)]
  exact ⟨rfl, by simp, rfl, rfl, rfl, fun t ht => queueRefresh_of_pending t ht⟩

theorem C4_coalescing_witness :
    1 ≤ 3 ∧ schedInit.animationFrame = none ∧
    ((queueRefresh^[3] schedInit).registered = schedInit.registered + 1 ∧
     (queueRefresh^[3] schedInit).animationFrame ≠ none ∧
     (queueRefresh^[3] schedInit).bodyRuns = schedInit.bodyRuns ∧
     (fireFrame 0 (queueRefresh^[3] schedInit)).bodyRuns = schedInit.bodyRuns + 1 ∧
     (fireFrame 0 (queueRefresh^[3] schedInit)).animationFrame = none ∧
     ∀ t : SchedState, t.animationFrame ≠ none → queueRefresh t = t) :=
  ⟨by decide, rfl, C4_coalescing 3 schedInit (by decide) rfl⟩

/-! ### Geometry lemmas -/

theorem createElement_width (env : RenderEnv) (markerLine : Int)
    (options : DecorationOptions) :
    (createElement env markerLine options).width
      = orDefault options.width 1 * env.actualCellWidth := by
  by_cases hA : options.anchor.getD Anchor.left = Anchor.right <;>
    by_cases hB : options.x.getD 0 ≠ 0 ∧ options.x.getD 0 > env.cols <;>
      simp [createElement, hA, hB]

theorem createElement_height (env : RenderEnv) (markerLine : Int)
    (options : DecorationOptions) :
    (createElement env markerLine options).height
      = orDefault options.height 1 * env.actualCellHeight := by
  by_cases hA : options.anchor.getD Anchor.left = Anchor.right <;>
    by_cases hB : options.x.getD 0 ≠ 0 ∧ options.x.getD 0 > env.cols <;>
      simp [createElement, hA, hB]

theorem createElement_display (env : RenderEnv) (markerLine : Int)
    (options : DecorationOptions) :
    (createElement env markerLine options).display
      = if options.x.getD 0 ≠ 0 ∧ options.x.getD 0 > env.cols then "none" else "" := by
  by_cases hA : options.anchor.getD Anchor.left = Anchor.right <;>
    by_cases hB : options.x.getD 0 ≠ 0 ∧ options.x.getD 0 > env.cols <;>
      simp [createElement, hA, hB]

theorem orDefault_eq_getD (v : Option Int) (d : Int) (h : v ≠ some 0) :
    orDefault v d = v.getD d := by
  cases v with
  | none => rfl
  | some x =>
      have hx : x ≠ 0 := fun h0 => h (by rw [h0])
      simp [orDefault, hx]

/-- C2 counterexample: with a cell width of 7 pixels, an explicitly
supplied `width: 0` produces a 7-pixel-wide element (the `||` default kicks
in), while the specification's `(width ?? 1) * cellWidth` formula demands 0
pixels. -/
theorem C2_counterexample :
    (createElement
        { actualCellWidth := 7, actualCellHeight := 11, cols := 80, rows := 24, ydisp := 0 }
        0 { width := some 0, height := some 0 }).width = 7 ∧
    (createElement
        { actualCellWidth := 7, actualCellHeight := 11, cols := 80, rows := 24, ydisp := 0 }
        0 { width := some 0, height := some 0 }).height = 11 ∧
    specPixelSize (some 0) 7 = 0 ∧
    (createElement
        { actualCellWidth := 7, actualCellHeight := 11, cols := 80, rows := 24, ydisp := 0 }
        0 { width := some 0, height := some 0 }).width ≠ specPixelSize (some 0) 7 := by
  decide

/-- C2 amended: element creation sets the pixel width to
`(options.width || 1) * cellPixelWidth` and likewise for the height, which
agrees with the specification's `?? 1` formula whenever the supplied value
is not 0; an explicitly supplied 0 is falsy in JavaScript and therefore
also defaults to one full cell. -/
theorem C2_pixel_size (env : RenderEnv) (markerLine : Int)
    (options : DecorationOptions)
    (hw : options.width ≠ some 0) (hh : options.height ≠ some 0) :
    ((createElement env markerLine options).width
        = specPixelSize options.width env.actualCellWidth ∧
     (createElement env markerLine options).height
        = specPixelSize options.height env.actualCellHeight) ∧
    ((createElement env markerLine
          { options with width := some 0, height := some 0 }).width
        = env.actualCellWidth ∧
     (createElement env markerLine
          { options with width := some 0, height := some 0 }).height
        = env.actualCellHeight) := by
  refine ⟨⟨?_, ?_⟩, ?_, ?_⟩
  · rw [createElement_width, orDefault_eq_getD options.width 1 hw, specPixelSize]
  · rw [createElement_height, orDefault_eq_getD options.height 1 hh, specPixelSize]
  · rw [createElement_width]
    simp [orDefault]
  · rw [createElement_height]
    simp [orDefault]

theorem C2_pixel_size_witness :
    (some 2 : Option Int) ≠ some 0 ∧ (none : Option Int) ≠ some 0 ∧
    ((((createElement
          { actualCellWidth := 7, actualCellHeight := 11, cols := 80, rows := 24, ydisp := 0 }
          0 { width := some 2 }).width
        = specPixelSize (some 2) 7 ∧
      (createElement
          { actualCellWidth := 7, actualCellHeight := 11, cols := 80, rows := 24, ydisp := 0 }
          0 { width := some 2 }).height
        = specPixelSize none 11) ∧
     ((createElement
          { actualCellWidth := 7, actualCellHeight := 11, cols := 80, rows := 24, ydisp := 0 }
          0 { (({ width := some 2 } : DecorationOptions)) with
              width := some 0, height := some 0 }).width = 7 ∧
      (createElement
          { actualCellWidth := 7, actualCellHeight := 11, cols := 80, rows := 24, ydisp := 0 }
          0 { (({ width := some 2 } : DecorationOptions)) with
              width := some 0, height := some 0 }).height = 11))) :=
  ⟨by decide, by decide,
    C2_pixel_size
      { actualCellWidth := 7, actualCellHeight := 11, cols := 80, rows := 24, ydisp := 0 }
      0 { width := some 2 } (by decide) (by decide)⟩

/-! ### Style-refresh lemmas -/

theorem refreshStyle_display (env : RenderEnv) (alt : Bool) (markerLine : Int)
    (e : ElementStyle) :
    (refreshStyle env alt markerLine e).display
      = displayAfterRefresh env alt markerLine := by
  simp only [refreshStyle, displayAfterRefresh]
  by_cases h : markerLine - env.ydisp < 0 ∨ markerLine - env.ydisp ≥ env.rows
  · rw [if_pos h, if_pos h]
  · rw [if_neg h, if_neg h]

theorem refreshStyle_top (env : RenderEnv) (alt : Bool) (markerLine : Int)
    (e : ElementStyle)
    (h : ¬(markerLine - env.ydisp < 0 ∨ markerLine - env.ydisp ≥ env.rows)) :
    (refreshStyle env alt markerLine e).top
      = (markerLine - env.ydisp) * env.actualCellHeight := by
  simp only [refreshStyle]
  rw [if_neg h]

theorem refreshStyle_refreshedAt (env : RenderEnv) (alt : Bool) (markerLine : Int)
    (e : ElementStyle) :
    RefreshedAt env alt markerLine (refreshStyle env alt markerLine e) :=
  ⟨refreshStyle_display env alt markerLine e,
   fun h => refreshStyle_top env alt markerLine e h⟩

theorem displayAfterRefresh_eq_none_iff (env : RenderEnv) (alt : Bool)
    (markerLine : Int) :
    (displayAfterRefresh env alt markerLine = "none" ↔
      (markerLine - env.ydisp < 0 ∨ markerLine - env.ydisp ≥ env.rows ∨ alt = true)) := by
  unfold displayAfterRefresh
  by_cases h : markerLine - env.ydisp < 0 ∨ markerLine - env.ydisp ≥ env.rows
  · rw [if_pos h]
    constructor
    · intro _
      rcases h with h1 | h2
      · exact Or.inl h1
      · exact Or.inr (Or.inl h2)
    · intro _
      rfl
  · rw [if_neg h]
    rw [not_or] at h
    cases alt with
    | false =>
        constructor
        · intro hc
          exact absurd hc (by decide)
        · intro hc
          rcases hc with h1 | h2 | h3
          · exact absurd h1 h.1
          · exact absurd h2 h.2
          · exact absurd h3 (by decide)
    | true =>
        constructor
        · intro _
          exact Or.inr (Or.inr rfl)
        · intro _
          decide

theorem displayAfterRefresh_alt_true (env : RenderEnv) (markerLine : Int) :
    displayAfterRefresh env true markerLine = "none" := by
  unfold displayAfterRefresh
  by_cases h : markerLine - env.ydisp < 0 ∨ markerLine - env.ydisp ≥ env.rows
  · rw [if_pos h]
  · rw [if_neg h]
    decide

/-- C3 counterexample: a decoration with `x = 5` in a 3-column buffer is
marked hidden by `_createElement`, yet already the first refresh pass (the
very pass that creates the element) runs `_refreshStyle`, which overwrites
`display` and leaves the element visible (`'block'`) because its line is
inside the viewport and the alt buffer is inactive — it does not remain
hidden. -/
theorem C3_counterexample :
    (createElement
        { actualCellWidth := 2, actualCellHeight := 3, cols := 3, rows := 10, ydisp := 0 }
        0 { x := some 5 }).display = "none" ∧
    Option.map ElementStyle.display
        (boundStyle
          (runEvents
            (initState
              { actualCellWidth := 2, actualCellHeight := 3, cols := 3, rows := 10, ydisp := 0 })
            [REvent.register { id := 0, markerLine := 0, options := { x := some 5 } },
             REvent.refresh])
          0)
      = some "block" := by
  decide

/-- C3 amended: when `options.x` is nonzero and exceeds the column count,
`_createElement` marks the element hidden, but every refresh pass's
`_refreshStyle` step overwrites `display` unconditionally: after any style
refresh the element is hidden exactly when its line is outside the viewport
or the alt buffer is active, regardless of `x` and the column count. -/
theorem C3_overflow_hidden_only_at_creation (env : RenderEnv)
    (options : DecorationOptions) (markerLine : Int) (alt : Bool)
    (hx : options.x.getD 0 ≠ 0 ∧ options.x.getD 0 > env.cols) :
    (createElement env markerLine options).display = "none" ∧
    ∀ e : ElementStyle,
      ((refreshStyle env alt markerLine e).display = "none" ↔
        (markerLine - env.ydisp < 0 ∨ markerLine - env.ydisp ≥ env.rows ∨ alt = true)) := by
  constructor
  · rw [createElement_display, if_pos hx]
  · intro e
    rw [refreshStyle_display]
    exact displayAfterRefresh_eq_none_iff env alt markerLine

theorem C3_overflow_hidden_only_at_creation_witness :
    ((some 5 : Option Int).getD 0 ≠ 0 ∧ (some 5 : Option Int).getD 0 > (3 : Int)) ∧
    (createElement
        { actualCellWidth := 2, actualCellHeight := 3, cols := 3, rows := 10, ydisp := 0 }
        0 { x := some 5 }).display = "none" ∧
    ((refreshStyle
        { actualCellWidth := 2, actualCellHeight := 3, cols := 3, rows := 10, ydisp := 0 }
        false 0 {}).display = "none" ↔
      ((0 : Int) - 0 < 0 ∨ (0 : Int) - 0 ≥ 10 ∨ false = true)) :=
  ⟨by decide,
    (C3_overflow_hidden_only_at_creation
      { actualCellWidth := 2, actualCellHeight := 3, cols := 3, rows := 10, ydisp := 0 }
      { x := some 5 } 0 false (by decide)).1,
    (C3_overflow_hidden_only_at_creation
      { actualCellWidth := 2, actualCellHeight := 3, cols := 3, rows := 10, ydisp := 0 }
      { x := some 5 } 0 false (by decide)).2 {}⟩

/-! ### Association-list lemmas -/

theorem alookup_isSome_iff {α : Type} (l : List (Nat × α)) (k : Nat) :
    (alookup l k).isSome ↔ k ∈ l.map (·.1) := by
  induction l with
  | nil => simp [alookup]
  | cons p rest ih =>
      obtain ⟨k1, v1⟩ := p
      by_cases hk : k1 = k
      · subst hk
        simp [alookup]
      · simp [alookup, hk, Ne.symm hk, ih]

theorem alookup_eq_none_iff {α : Type} (l : List (Nat × α)) (k : Nat) :
    alookup l k = none ↔ k ∉ l.map (·.1) := by
  induction l with
  | nil => simp [alookup]
  | cons p rest ih =>
      obtain ⟨k1, v1⟩ := p
      by_cases hk : k1 = k
      · subst hk
        simp [alookup]
      · simp [alookup, hk, Ne.symm hk, ih]

theorem alookup_mem {α : Type} {l : List (Nat × α)} {k : Nat} {v : α}
    (h : alookup l k = some v) : (k, v) ∈ l := by
  induction l with
  | nil => simp [alookup] at h
  | cons p rest ih =>
      obtain ⟨k1, v1⟩ := p
      by_cases hk : k1 = k
      · subst hk
        rw [alookup, if_pos rfl] at h
        injection h with h
        subst h
        exact List.mem_cons_self _ _
      · rw [alookup, if_neg hk] at h
        exact List.mem_cons_of_mem _ (ih h)

theorem aerase_eq_of_alookup_none {α : Type} (l : List (Nat × α)) (k : Nat)
    (h : alookup l k = none) : aerase l k = l := by
  induction l with
  | nil => rfl
  | cons p rest ih =>
      obtain ⟨k1, v1⟩ := p
      by_cases hk : k1 = k
      · rw [alookup, if_pos hk] at h
        exact absurd h (by simp)
      · rw [alookup, if_neg hk] at h
        simp only [aerase, List.filter_cons] at ih ⊢
        simp [hk, ih h]

theorem alookup_aerase {α : Type} (l : List (Nat × α)) (k : Nat) :
    alookup (aerase l k) k = none := by
  induction l with
  | nil => rfl
  | cons p rest ih =>
      obtain ⟨k1, v1⟩ := p
      by_cases hk : k1 = k
      · simpa [aerase, List.filter_cons, hk] using ih
      · simpa [aerase, alookup, List.filter_cons, hk] using ih

theorem mem_map_fst_aerase {α : Type} {l : List (Nat × α)} {dId k : Nat}
    (h : k ∈ (aerase l dId).map (·.1)) : k ∈ l.map (·.1) ∧ k ≠ dId := by
  simp only [aerase, List.mem_map, List.mem_filter] at h
  obtain ⟨p, ⟨hp, hne⟩, rfl⟩ := h
  refine ⟨List.mem_map.mpr ⟨p, hp, rfl⟩, ?_⟩
  simpa using hne

theorem updateElement_cons_eq (k : Nat) (v1 : ElementStyle)
    (rest : List (Nat × ElementStyle)) (f : ElementStyle → ElementStyle) :
    updateElement ((k, v1) :: rest) k f = (k, f v1) :: updateElement rest k f := by
  simp [updateElement, List.map_cons]

theorem updateElement_cons_ne (k1 : Nat) (v1 : ElementStyle)
    (rest : List (Nat × ElementStyle)) (k : Nat) (f : ElementStyle → ElementStyle)
    (hk : k1 ≠ k) :
    updateElement ((k1, v1) :: rest) k f = (k1, v1) :: updateElement rest k f := by
  simp only [updateElement, List.map_cons]
  rw [if_neg hk]

theorem alookup_updateElement_eq (l : List (Nat × ElementStyle)) (k : Nat)
    (f : ElementStyle → ElementStyle) :
    alookup (updateElement l k f) k = (alookup l k).map f := by
  induction l with
  | nil => rfl
  | cons p rest ih =>
      obtain ⟨k1, v1⟩ := p
      by_cases hk : k1 = k
      · subst hk
        rw [updateElement_cons_eq, alookup, if_pos rfl, alookup, if_pos rfl]
        rfl
      · rw [updateElement_cons_ne k1 v1 rest k f hk, alookup, if_neg hk, ih,
          alookup, if_neg hk]

theorem alookup_updateElement_ne (l : List (Nat × ElementStyle)) (k j : Nat)
    (f : ElementStyle → ElementStyle) (h : j ≠ k) :
    alookup (updateElement l k f) j = alookup l j := by
  induction l with
  | nil => rfl
  | cons p rest ih =>
      obtain ⟨k1, v1⟩ := p
      by_cases hk : k1 = k
      · subst hk
        rw [updateElement_cons_eq, alookup, if_neg (Ne.symm h), ih,
          alookup, if_neg (Ne.symm h)]
      · by_cases hj : k1 = j
        · subst hj
          rw [updateElement_cons_ne k1 v1 rest k f hk, alookup, if_pos rfl,
            alookup, if_pos rfl]
        · rw [updateElement_cons_ne k1 v1 rest k f hk, alookup, if_neg hj, ih,
            alookup, if_neg hj]

theorem alookup_updateElement_none_iff (l : List (Nat × ElementStyle)) (k j : Nat)
    (f : ElementStyle → ElementStyle) :
    (alookup (updateElement l k f) j = none ↔ alookup l j = none) := by
  by_cases hj : j = k
  · subst hj
    rw [alookup_updateElement_eq]
    cases alookup l j <;> simp
  · rw [alookup_updateElement_ne l k j f hj]

theorem updateElement_map_fst (l : List (Nat × ElementStyle)) (k : Nat)
    (f : ElementStyle → ElementStyle) :
    (updateElement l k f).map (·.1) = l.map (·.1) := by
  induction l with
  | nil => rfl
  | cons p rest ih =>
      obtain ⟨k1, v1⟩ := p
      by_cases hk : k1 = k
      · subst hk
        rw [updateElement_cons_eq]
        simp [ih]
      · rw [updateElement_cons_ne k1 v1 rest k f hk]
        simp [ih]

/-! ### Removal lemmas -/

theorem removeDecoration_live (dId : Nat) (s : RState) :
    (removeDecoration dId s).live = s.live := by
  unfold removeDecoration
  cases alookup s.decorationElements dId <;> rfl

theorem removeDecoration_alt (dId : Nat) (s : RState) :
    (removeDecoration dId s).altBufferIsActive = s.altBufferIsActive := by
  unfold removeDecoration
  cases alookup s.decorationElements dId <;> rfl

theorem alookup_removeDecoration (dId : Nat) (s : RState) :
    alookup (removeDecoration dId s).decorationElements dId = none := by
  unfold removeDecoration
  cases alookup s.decorationElements dId <;> exact alookup_aerase _ _

/-- C8: removing a decoration with no mapped element is a perfect no-op:
the whole renderer state — in particular the decoration-to-element map and
the overlay surface's child list — is left unchanged, so removal may be
invoked redundantly without guarding. -/
theorem C8_remove_idempotent (s : RState) (dId : Nat)
    (h : alookup s.decorationElements dId = none) :
    removeDecoration dId s = s := by
  unfold removeDecoration
  rw [h, aerase_eq_of_alookup_none s.decorationElements dId h]

theorem C8_remove_idempotent_witness :
    alookup (initState sampleEnv).decorationElements 3 = none ∧
    removeDecoration 3 (initState sampleEnv) = initState sampleEnv :=
  ⟨rfl, C8_remove_idempotent (initState sampleEnv) 3 rfl⟩

/-- C10: when a bound decoration goes through the removal path, the map
entry is deleted and the element is detached from the overlay surface, but
the decoration's mutable `element` slot is left untouched (it still points
at the detached element) and the element itself continues to exist. -/
theorem C10_slot_untouched (s : RState) (dId eId : Nat)
    (h : alookup s.decorationElements dId = some eId) :
    (removeDecoration dId s).elementSlot = s.elementSlot ∧
    (removeDecoration dId s).elements = s.elements ∧
    alookup (removeDecoration dId s).decorationElements dId = none ∧
    eId ∉ (removeDecoration dId s).containerChildren := by
  unfold removeDecoration
  rw [h]
  refine ⟨rfl, rfl, alookup_aerase _ _, ?_⟩
  intro hc
  simp [List.mem_filter] at hc

theorem C10_slot_untouched_witness :
    alookup sampleBound.decorationElements 0 = some 0 ∧
    ((removeDecoration 0 sampleBound).elementSlot = sampleBound.elementSlot ∧
     (removeDecoration 0 sampleBound).elements = sampleBound.elements ∧
     alookup (removeDecoration 0 sampleBound).decorationElements 0 = none ∧
     0 ∉ (removeDecoration 0 sampleBound).containerChildren) :=
  ⟨by decide, C10_slot_untouched sampleBound 0 0 (by decide)⟩

/-! ### Refresh-pass structure lemmas -/

theorem renderDecoration_live (s : RState) (d : Decoration) :
    (renderDecoration s d).live = s.live := by
  unfold renderDecoration
  cases alookup s.decorationElements d.id <;> rfl

theorem renderDecoration_env (s : RState) (d : Decoration) :
    (renderDecoration s d).env = s.env := by
  unfold renderDecoration
  cases alookup s.decorationElements d.id <;> rfl

theorem renderDecoration_altFlag (s : RState) (d : Decoration) :
    (renderDecoration s d).altBufferIsActive = s.altBufferIsActive := by
  unfold renderDecoration
  cases alookup s.decorationElements d.id <;> rfl

theorem foldl_render_live (L : List Decoration) (s : RState) :
    (L.foldl renderDecoration s).live = s.live := by
  induction L generalizing s with
  | nil => rfl
  | cons d rest ih => rw [List.foldl_cons, ih, renderDecoration_live]

theorem foldl_render_env (L : List Decoration) (s : RState) :
    (L.foldl renderDecoration s).env = s.env := by
  induction L generalizing s with
  | nil => rfl
  | cons d rest ih => rw [List.foldl_cons, ih, renderDecoration_env]

theorem foldl_render_altFlag (L : List Decoration) (s : RState) :
    (L.foldl renderDecoration s).altBufferIsActive = s.altBufferIsActive := by
  induction L generalizing s with
  | nil => rfl
  | cons d rest ih => rw [List.foldl_cons, ih, renderDecoration_altFlag]

theorem refreshDecorations_live (s : RState) :
    (refreshDecorations s).live = s.live :=
  foldl_render_live s.live s

theorem renderDecoration_map_cases (s : RState) (d : Decoration) :
    (renderDecoration s d).decorationElements = s.decorationElements ∨
    (renderDecoration s d).decorationElements
      = (d.id, s.nextElem) :: s.decorationElements := by
  unfold renderDecoration
  cases alookup s.decorationElements d.id with
  | some eId => exact Or.inl rfl
  | none => exact Or.inr rfl

theorem renderDecoration_mapDom_mono (s : RState) (d : Decoration) (k : Nat)
    (h : k ∈ mapDom s) : k ∈ mapDom (renderDecoration s d) := by
  simp only [mapDom] at h ⊢
  rcases renderDecoration_map_cases s d with hc | hc
  · rw [hc]
    exact h
  · rw [hc, List.map_cons]
    exact List.mem_cons_of_mem _ h

theorem renderDecoration_mapDom_self (s : RState) (d : Decoration) :
    d.id ∈ mapDom (renderDecoration s d) := by
  simp only [mapDom]
  unfold renderDecoration
  cases hx : alookup s.decorationElements d.id with
  | some eId =>
      have hs : (alookup s.decorationElements d.id).isSome := by
        rw [hx]
        rfl
      exact (alookup_isSome_iff _ _).mp hs
  | none => exact List.mem_cons_self _ _

theorem renderDecoration_mapDom_sub (s : RState) (d : Decoration) (k : Nat)
    (h : k ∈ mapDom (renderDecoration s d)) : k = d.id ∨ k ∈ mapDom s := by
  simp only [mapDom] at h ⊢
  rcases renderDecoration_map_cases s d with hc | hc
  · rw [hc] at h
    exact Or.inr h
  · rw [hc, List.map_cons] at h
    rcases List.mem_cons.mp h with h1 | h2
    · exact Or.inl h1
    · exact Or.inr h2

theorem foldl_mapDom_mono (L : List Decoration) (s : RState) (k : Nat)
    (h : k ∈ mapDom s) : k ∈ mapDom (L.foldl renderDecoration s) := by
  induction L generalizing s with
  | nil => exact h
  | cons d rest ih =>
      rw [List.foldl_cons]
      exact ih _ (renderDecoration_mapDom_mono s d k h)

theorem foldl_mapDom_mem (L : List Decoration) (s : RState) (d : Decoration)
    (hd : d ∈ L) : d.id ∈ mapDom (L.foldl renderDecoration s) := by
  induction L generalizing s with
  | nil => exact absurd hd (List.not_mem_nil d)
  | cons d0 rest ih =>
      rw [List.foldl_cons]
      rcases List.mem_cons.mp hd with rfl | h2
      · exact foldl_mapDom_mono rest _ d.id (renderDecoration_mapDom_self s d)
      · exact ih _ h2

theorem foldl_mapDom_sub (L : List Decoration) (s : RState) (k : Nat)
    (h : k ∈ mapDom (L.foldl renderDecoration s)) :
    k ∈ mapDom s ∨ k ∈ L.map (·.id) := by
  induction L generalizing s with
  | nil => exact Or.inl h
  | cons d0 rest ih =>
      rw [List.foldl_cons] at h
      rcases ih _ h with h1 | h2
      · rcases renderDecoration_mapDom_sub s d0 k h1 with he | hm
        · refine Or.inr ?_
          rw [List.map_cons, he]
          exact List.mem_cons_self _ _
        · exact Or.inl hm
      · refine Or.inr ?_
        rw [List.map_cons]
        exact List.mem_cons_of_mem _ h2

/-! ### The map-domain ⊆ live-set invariant -/

theorem mapLive_refreshDecorations (s : RState) (h : MapLive s) :
    MapLive (refreshDecorations s) := by
  intro k hk
  have hsub := foldl_mapDom_sub s.live s k hk
  have hlive : liveIds (refreshDecorations s) = liveIds s := by
    simp only [liveIds, refreshDecorations_live]
  rw [hlive]
  rcases hsub with h1 | h2
  · exact h k h1
  · exact h2

theorem mapDom_removeDecoration (dId : Nat) (t : RState) (k : Nat) :
    k ∈ mapDom (removeDecoration dId t) → k ∈ mapDom t ∧ k ≠ dId := by
  unfold removeDecoration
  cases hx : alookup t.decorationElements dId with
  | some eId =>
      intro h
      simp only [mapDom] at h ⊢
      exact mem_map_fst_aerase h
  | none =>
      intro h
      simp only [mapDom] at h ⊢
      exact mem_map_fst_aerase h

theorem disposeDecoration_of_disposed (dId : Nat) (s : RState)
    (hd : dId ∈ s.disposed) : disposeDecoration dId s = s := by
  unfold disposeDecoration
  rw [if_pos hd]

theorem disposeDecoration_live_of (dId : Nat) (s : RState) (hd : dId ∉ s.disposed) :
    (disposeDecoration dId s).live = s.live.filter fun d => d.id != dId := by
  simp only [disposeDecoration]
  rw [if_neg hd, removeDecoration_live]
  by_cases hw : dId ∈ s.wired
  · rw [if_pos hw, removeDecoration_live]
  · rw [if_neg hw]

theorem alookup_disposeDecoration (dId : Nat) (t : RState) (hd : dId ∉ t.disposed) :
    alookup (disposeDecoration dId t).decorationElements dId = none := by
  simp only [disposeDecoration]
  rw [if_neg hd]
  exact alookup_removeDecoration dId _

theorem disposeDecoration_mapDom_sub (dId : Nat) (s : RState) (hd : dId ∉ s.disposed)
    (k : Nat) (hk : k ∈ mapDom (disposeDecoration dId s)) :
    k ∈ mapDom s ∧ k ≠ dId := by
  simp only [disposeDecoration] at hk
  rw [if_neg hd] at hk
  obtain ⟨hk2, hne⟩ := mapDom_removeDecoration dId _ k hk
  refine ⟨?_, hne⟩
  by_cases hw : dId ∈ s.wired
  · rw [if_pos hw] at hk2
    exact (mapDom_removeDecoration dId _ k hk2).1
  · rw [if_neg hw] at hk2
    exact hk2

theorem disposeDecoration_mapLive (dId : Nat) (s : RState) (h : MapLive s) :
    MapLive (disposeDecoration dId s) := by
  by_cases hd : dId ∈ s.disposed
  · rw [disposeDecoration_of_disposed dId s hd]
    exact h
  · intro k hk
    obtain ⟨hdom, hne⟩ := disposeDecoration_mapDom_sub dId s hd k hk
    have h2 := h k hdom
    simp only [liveIds] at h2 ⊢
    rw [disposeDecoration_live_of dId s hd]
    obtain ⟨d, hd2, hdk⟩ := List.mem_map.mp h2
    refine List.mem_map.mpr ⟨d, List.mem_filter.mpr ⟨hd2, ?_⟩, hdk⟩
    have hdd : d.id ≠ dId := by
      rw [hdk]
      exact hne
    simpa using hdd

theorem disposeMarker_mapLive (dId : Nat) (s : RState) (h : MapLive s) :
    MapLive (disposeMarker dId s) := by
  simp only [disposeMarker]
  by_cases hm : dId ∈ s.markerDisposed
  · rw [if_pos hm]
    exact h
  · rw [if_neg hm]
    have h1 : MapLive { s with markerDisposed := dId :: s.markerDisposed } := h
    by_cases hw : dId ∈ s.wired
    · rw [if_pos hw]
      exact disposeDecoration_mapLive dId _ h1
    · rw [if_neg hw]
      exact h1

theorem stepEvent_mapLive (s : RState) (e : REvent) (h : MapLive s) :
    MapLive (stepEvent s e) := by
  cases e with
  | register d =>
      simp only [stepEvent]
      by_cases hc : d.id ∈ liveIds s ∨ d.id ∈ s.disposed
      · rw [if_pos hc]
        exact h
      · rw [if_neg hc]
        intro k hk
        have h2 := h k hk
        simp only [liveIds] at h2 ⊢
        rw [List.map_append]
        exact List.mem_append_left _ h2
  | disposeDecor dId => exact disposeDecoration_mapLive dId s h
  | disposeMarker dId => exact disposeMarker_mapLive dId s h
  | refresh => exact mapLive_refreshDecorations s h
  | bufferActivate alt => exact h
  | setYdisp y => exact h

theorem initState_mapLive (env : RenderEnv) : MapLive (initState env) := by
  intro k hk
  exact absurd hk (List.not_mem_nil k)

theorem runEvents_mapLive (es : List REvent) (s : RState) (h : MapLive s) :
    MapLive (runEvents s es) := by
  induction es generalizing s with
  | nil => exact h
  | cons e rest ih => exact ih _ (stepEvent_mapLive s e h)

/-- C5: after any event history followed by a refresh pass, a decoration
id has an entry in the decoration-to-element map exactly when it is in the
registry's live set (entries are created on the first refresh pass after
registration), and both the disposal path and the removal path delete the
entry synchronously. -/
theorem C5_map_invariant (env : RenderEnv) (es : List REvent) (dId : Nat) :
    ((alookup (runEvents (initState env)
          (es ++ [REvent.refresh])).decorationElements dId).isSome
        ↔ dId ∈ liveIds (runEvents (initState env) (es ++ [REvent.refresh]))) ∧
    (∀ t : RState, dId ∉ t.disposed →
      alookup (disposeDecoration dId t).decorationElements dId = none) ∧
    (∀ t : RState, alookup (removeDecoration dId t).decorationElements dId = none) := by
  refine ⟨?_, fun t ht => alookup_disposeDecoration dId t ht,
    fun t => alookup_removeDecoration dId t⟩
  have hsplit : runEvents (initState env) (es ++ [REvent.refresh])
      = refreshDecorations (runEvents (initState env) es) := by
    simp only [runEvents, List.foldl_append, List.foldl_cons, List.foldl_nil]
    rfl
  rw [hsplit]
  constructor
  · intro hs
    have hk : dId ∈ mapDom (refreshDecorations (runEvents (initState env) es)) :=
      (alookup_isSome_iff _ _).mp hs
    have hml : MapLive (refreshDecorations (runEvents (initState env) es)) :=
      mapLive_refreshDecorations _ (runEvents_mapLive es _ (initState_mapLive env))
    exact hml dId hk
  · intro hl
    have hl2 : dId ∈ liveIds (runEvents (initState env) es) := by
      simpa [liveIds, refreshDecorations_live] using hl
    obtain ⟨d, hd, hdk⟩ := List.mem_map.mp hl2
    have hmem := foldl_mapDom_mem (runEvents (initState env) es).live
      (runEvents (initState env) es) d hd
    rw [hdk] at hmem
    exact (alookup_isSome_iff _ _).mpr hmem

theorem C5_map_invariant_witness :
    ((alookup (runEvents (initState sampleEnv)
          ([REvent.register sampleDecoration] ++ [REvent.refresh])).decorationElements
          0).isSome
        ↔ 0 ∈ liveIds (runEvents (initState sampleEnv)
          ([REvent.register sampleDecoration] ++ [REvent.refresh]))) ∧
    alookup (disposeDecoration 0 sampleBound).decorationElements 0 = none ∧
    alookup (removeDecoration 0 sampleBound).decorationElements 0 = none :=
  ⟨(C5_map_invariant sampleEnv [REvent.register sampleDecoration] 0).1,
   (C5_map_invariant sampleEnv [REvent.register sampleDecoration] 0).2.1
      sampleBound (by decide),
   (C5_map_invariant sampleEnv [REvent.register sampleDecoration] 0).2.2 sampleBound⟩

/-! ### Well-formedness is preserved by the refresh pass -/

theorem alookup_cons_eq {α : Type} (k1 : Nat) (v1 : α) (rest : List (Nat × α)) :
    alookup ((k1, v1) :: rest) k1 = some v1 := by
  rw [alookup, if_pos rfl]

theorem alookup_cons_ne {α : Type} (k1 : Nat) (v1 : α) (rest : List (Nat × α)) (j : Nat)
    (h : k1 ≠ j) : alookup ((k1, v1) :: rest) j = alookup rest j := by
  rw [alookup, if_neg h]

theorem alookup_aset {α : Type} (l : List (Nat × α)) (k : Nat) (v : α) :
    alookup (aset l k v) k = some v :=
  alookup_cons_eq k v (aerase l k)

theorem renderDecoration_existing (s : RState) (d : Decoration) (eId : Nat)
    (h : alookup s.decorationElements d.id = some eId) :
    renderDecoration s d =
      { s with
        elements := updateElement s.elements eId
          (refreshStyle s.env s.altBufferIsActive d.markerLine) } := by
  unfold renderDecoration
  rw [h]

theorem renderDecoration_create (s : RState) (d : Decoration)
    (h : alookup s.decorationElements d.id = none) :
    renderDecoration s d =
      { s with
        wired := d.id :: s.wired
        elementSlot := aset s.elementSlot d.id s.nextElem
        decorationElements := (d.id, s.nextElem) :: s.decorationElements
        elements := updateElement
          ((s.nextElem, createElement s.env d.markerLine d.options) :: s.elements)
          s.nextElem (refreshStyle s.env s.altBufferIsActive d.markerLine)
        containerChildren := s.containerChildren ++ [s.nextElem]
        nextElem := s.nextElem + 1 } := by
  unfold renderDecoration
  rw [h]

theorem renderDecoration_WF (s : RState) (d : Decoration) (hwf : WF s) :
    WF (renderDecoration s d) := by
  obtain ⟨h1, h2, h3, h4, h5, h6⟩ := hwf
  cases hx : alookup s.decorationElements d.id with
  | some eId =>
      rw [renderDecoration_existing s d eId hx]
      refine ⟨h1, h2, h3, h4, ?_, ?_⟩
      · intro q hq
        have hq1 : q.1 ∈ (updateElement s.elements eId
            (refreshStyle s.env s.altBufferIsActive d.markerLine)).map (·.1) :=
          List.mem_map.mpr ⟨q, hq, rfl⟩
        rw [updateElement_map_fst] at hq1
        obtain ⟨p, hp, hpq⟩ := List.mem_map.mp hq1
        have hlt := h5 p hp
        rw [hpq] at hlt
        exact hlt
      · intro p hp
        rw [Ne, alookup_updateElement_none_iff]
        exact h6 p hp
  | none =>
      rw [renderDecoration_create s d hx]
      have hfresh : d.id ∉ mapDom s := (alookup_eq_none_iff _ _).mp hx
      refine ⟨h1, ?_, ?_, ?_, ?_, ?_⟩
      · simp only [mapDom, List.map_cons]
        exact List.nodup_cons.mpr ⟨hfresh, h2⟩
      · simp only [List.map_cons]
        refine List.nodup_cons.mpr ⟨?_, h3⟩
        intro hmem
        obtain ⟨p, hp, hpv⟩ := List.mem_map.mp hmem
        have := h4 p hp
        rw [hpv] at this
        exact Nat.lt_irrefl _ this
      · intro p hp
        rcases List.mem_cons.mp hp with rfl | hp2
        · exact Nat.lt_succ_self _
        · exact Nat.lt_succ_of_lt (h4 p hp2)
      · intro q hq
        have hq1 : q.1 ∈ (updateElement
            ((s.nextElem, createElement s.env d.markerLine d.options) :: s.elements)
            s.nextElem (refreshStyle s.env s.altBufferIsActive d.markerLine)).map (·.1) :=
          List.mem_map.mpr ⟨q, hq, rfl⟩
        rw [updateElement_map_fst, List.map_cons] at hq1
        rcases List.mem_cons.mp hq1 with he | hm
        · rw [he]
          exact Nat.lt_succ_self _
        · obtain ⟨p, hp, hpq⟩ := List.mem_map.mp hm
          have hlt := h5 p hp
          rw [hpq] at hlt
          exact Nat.lt_succ_of_lt hlt
      · intro p hp
        rw [Ne, alookup_updateElement_none_iff]
        rcases List.mem_cons.mp hp with rfl | hp2
        · rw [alookup_cons_eq]
          intro hc
          exact Option.noConfusion hc
        · have hlt := h4 p hp2
          rw [alookup_cons_ne s.nextElem _ s.elements p.2 (Nat.ne_of_gt hlt)]
          exact h6 p hp2

theorem renderDecoration_self (s : RState) (d : Decoration) (hwf : WF s) :
    ∃ eId st,
      alookup (renderDecoration s d).decorationElements d.id = some eId ∧
      alookup (renderDecoration s d).elements eId = some st ∧
      RefreshedAt s.env s.altBufferIsActive d.markerLine st := by
  obtain ⟨h1, h2, h3, h4, h5, h6⟩ := hwf
  cases hx : alookup s.decorationElements d.id with
  | some eId =>
      rw [renderDecoration_existing s d eId hx]
      refine ⟨eId, ?_⟩
      have h6x := h6 (d.id, eId) (alookup_mem hx)
      cases hel : alookup s.elements eId with
      | none => exact absurd hel h6x
      | some prev =>
          refine ⟨refreshStyle s.env s.altBufferIsActive d.markerLine prev, hx, ?_, ?_⟩
          · rw [alookup_updateElement_eq, hel]
            rfl
          · exact refreshStyle_refreshedAt _ _ _ _
  | none =>
      rw [renderDecoration_create s d hx]
      refine ⟨s.nextElem,
        refreshStyle s.env s.altBufferIsActive d.markerLine
          (createElement s.env d.markerLine d.options), alookup_cons_eq _ _ _, ?_, ?_⟩
      · rw [alookup_updateElement_eq, alookup_cons_eq]
        rfl
      · exact refreshStyle_refreshedAt _ _ _ _

theorem renderDecoration_preserves (s : RState) (d : Decoration) (k eId : Nat)
    (hwf : WF s) (hk : alookup s.decorationElements k = some eId) (hne : d.id ≠ k) :
    alookup (renderDecoration s d).decorationElements k = some eId ∧
    alookup (renderDecoration s d).elements eId = alookup s.elements eId := by
  obtain ⟨h1, h2, h3, h4, h5, h6⟩ := hwf
  cases hx : alookup s.decorationElements d.id with
  | some eIdd =>
      rw [renderDecoration_existing s d eIdd hx]
      refine ⟨hk, ?_⟩
      have hvne : eId ≠ eIdd := by
        intro hcontra
        subst hcontra
        have hmem1 := alookup_mem hx
        have hmem2 := alookup_mem hk
        have heq := List.inj_on_of_nodup_map h3 hmem1 hmem2 rfl
        exact hne (congrArg Prod.fst heq)
      exact alookup_updateElement_ne s.elements eIdd eId _ hvne
  | none =>
      rw [renderDecoration_create s d hx]
      constructor
      · rw [alookup_cons_ne d.id s.nextElem _ k hne]
        exact hk
      · have hlt : eId < s.nextElem := h4 (k, eId) (alookup_mem hk)
        have hne2 : eId ≠ s.nextElem := Nat.ne_of_lt hlt
        rw [alookup_updateElement_ne _ s.nextElem eId _ hne2,
          alookup_cons_ne s.nextElem _ s.elements eId (Ne.symm hne2)]

theorem foldl_render_WF (L : List Decoration) (s : RState) (hwf : WF s) :
    WF (L.foldl renderDecoration s) := by
  induction L generalizing s with
  | nil => exact hwf
  | cons d rest ih =>
      rw [List.foldl_cons]
      exact ih _ (renderDecoration_WF s d hwf)

theorem foldl_render_preserves (L : List Decoration) (s : RState) (k eId : Nat)
    (hwf : WF s) (hk : alookup s.decorationElements k = some eId)
    (hL : ∀ d ∈ L, d.id ≠ k) :
    alookup (L.foldl renderDecoration s).decorationElements k = some eId ∧
    alookup (L.foldl renderDecoration s).elements eId = alookup s.elements eId := by
  induction L generalizing s with
  | nil => exact ⟨hk, rfl⟩
  | cons d rest ih =>
      rw [List.foldl_cons]
      have hC := renderDecoration_preserves s d k eId hwf hk
        (hL d (List.mem_cons_self d rest))
      have hrec := ih (renderDecoration s d) (renderDecoration_WF s d hwf) hC.1
        (fun d2 hd2 => hL d2 (List.mem_cons_of_mem d hd2))
      exact ⟨hrec.1, hrec.2.trans hC.2⟩

theorem foldMain (L : List Decoration) (s : RState) (hwf : WF s)
    (hnd : (L.map (·.id)).Nodup) (d : Decoration) (hd : d ∈ L) :
    ∃ eId st,
      alookup (L.foldl renderDecoration s).decorationElements d.id = some eId ∧
      alookup (L.foldl renderDecoration s).elements eId = some st ∧
      RefreshedAt s.env s.altBufferIsActive d.markerLine st := by
  induction L generalizing s with
  | nil => exact absurd hd (List.not_mem_nil d)
  | cons d0 rest ih =>
      rw [List.foldl_cons]
      rw [List.map_cons] at hnd
      obtain ⟨hnotin, hndr⟩ := List.nodup_cons.mp hnd
      rcases List.mem_cons.mp hd with rfl | hmem
      · obtain ⟨eId, st, he1, he2, he3⟩ := renderDecoration_self s d hwf
        have hpres := foldl_render_preserves rest (renderDecoration s d) d.id eId
          (renderDecoration_WF s d hwf) he1
          (fun d2 hd2 heq => hnotin (by rw [← heq]; exact List.mem_map.mpr ⟨d2, hd2, rfl⟩))
        refine ⟨eId, st, hpres.1, ?_, he3⟩
        rw [hpres.2]
        exact he2
      · have hrec := ih (renderDecoration s d0) (renderDecoration_WF s d0 hwf) hndr hmem
        rw [renderDecoration_env, renderDecoration_altFlag] at hrec
        exact hrec

theorem renderDecoration_no_create (s : RState) (d : Decoration) (eId : Nat)
    (h : alookup s.decorationElements d.id = some eId) :
    (renderDecoration s d).decorationElements = s.decorationElements ∧
    (renderDecoration s d).nextElem = s.nextElem ∧
    (renderDecoration s d).containerChildren = s.containerChildren := by
  rw [renderDecoration_existing s d eId h]
  exact ⟨rfl, rfl, rfl⟩

theorem foldl_render_no_create (L : List Decoration) (s : RState)
    (h : ∀ d ∈ L, (alookup s.decorationElements d.id).isSome) :
    (L.foldl renderDecoration s).decorationElements = s.decorationElements ∧
    (L.foldl renderDecoration s).nextElem = s.nextElem ∧
    (L.foldl renderDecoration s).containerChildren = s.containerChildren := by
  induction L generalizing s with
  | nil => exact ⟨rfl, rfl, rfl⟩
  | cons d rest ih =>
      rw [List.foldl_cons]
      obtain ⟨eId, heId⟩ := Option.isSome_iff_exists.mp (h d (List.mem_cons_self d rest))
      have hnc := renderDecoration_no_create s d eId heId
      have hcond : ∀ d2 ∈ rest,
          (alookup (renderDecoration s d).decorationElements d2.id).isSome := by
        intro d2 hd2
        rw [hnc.1]
        exact h d2 (List.mem_cons_of_mem d hd2)
      have hrest := ih (renderDecoration s d) hcond
      exact ⟨hrest.1.trans hnc.1, hrest.2.1.trans hnc.2.1, hrest.2.2.trans hnc.2.2⟩

/-! ### Viewport clipping and alt-buffer suppression -/

/-- C6: on a refresh pass, every live decoration's bound element obeys the
style rule of `_refreshStyle`: with `line = marker.line - ydisp`, the
element is hidden when `line < 0` or `line ≥ rows`; otherwise its vertical
offset is set to `line * cellPixelHeight` and it is hidden exactly when the
alt-buffer flag is set, visible (`'block'`) otherwise. -/
theorem C6_viewport_clipping (s : RState) (hwf : WF s) (d : Decoration)
    (hd : d ∈ s.live) :
    ((d.markerLine - s.env.ydisp < 0 ∨ d.markerLine - s.env.ydisp ≥ s.env.rows) →
      Option.map ElementStyle.display (boundStyle (refreshDecorations s) d.id)
        = some "none") ∧
    (¬(d.markerLine - s.env.ydisp < 0 ∨ d.markerLine - s.env.ydisp ≥ s.env.rows) →
      Option.map ElementStyle.top (boundStyle (refreshDecorations s) d.id)
          = some ((d.markerLine - s.env.ydisp) * s.env.actualCellHeight) ∧
      Option.map ElementStyle.display (boundStyle (refreshDecorations s) d.id)
          = some (if s.altBufferIsActive then "none" else "block")) := by
  obtain ⟨eId, st, he1, he2, he3⟩ := foldMain s.live s hwf hwf.1 d hd
  have hb : boundStyle (refreshDecorations s) d.id = some st := by
    unfold boundStyle refreshDecorations
    rw [he1]
    exact he2
  obtain ⟨hdisp, htop⟩ := he3
  constructor
  · intro hout
    rw [hb]
    show some st.display = some "none"
    have hnone : displayAfterRefresh s.env s.altBufferIsActive d.markerLine = "none" := by
      unfold displayAfterRefresh
      rw [if_pos hout]
    rw [hdisp, hnone]
  · intro hin
    rw [hb]
    constructor
    · show some st.top = some _
      rw [htop hin]
    · show some st.display = some _
      have hdb : displayAfterRefresh s.env s.altBufferIsActive d.markerLine
          = if s.altBufferIsActive then "none" else "block" := by
        unfold displayAfterRefresh
        rw [if_neg hin]
      rw [hdisp, hdb]

theorem C6_viewport_clipping_witness :
    sampleDecoration ∈ sampleRegistered.live ∧
    ¬((1 : Int) - 0 < 0 ∨ (1 : Int) - 0 ≥ 5) ∧
    (Option.map ElementStyle.top (boundStyle (refreshDecorations sampleRegistered) 0)
        = some 3 ∧
     Option.map ElementStyle.display (boundStyle (refreshDecorations sampleRegistered) 0)
        = some "block") :=
  ⟨by decide, by decide,
    (C6_viewport_clipping sampleRegistered (by decide) sampleDecoration
      (by decide)).2 (by decide)⟩

theorem removeDecoration_markerDisposed (dId : Nat) (t : RState) :
    (removeDecoration dId t).markerDisposed = t.markerDisposed := by
  unfold removeDecoration
  cases alookup t.decorationElements dId <;> rfl

theorem disposeDecoration_markerDisposed (dId : Nat) (t : RState) :
    (disposeDecoration dId t).markerDisposed = t.markerDisposed := by
  simp only [disposeDecoration]
  by_cases hd : dId ∈ t.disposed
  · rw [if_pos hd]
  · rw [if_neg hd, removeDecoration_markerDisposed]
    by_cases hw : dId ∈ t.wired
    · rw [if_pos hw, removeDecoration_markerDisposed]
    · rw [if_neg hw]

theorem disposeDecoration_altFlag (dId : Nat) (t : RState) :
    (disposeDecoration dId t).altBufferIsActive = t.altBufferIsActive := by
  simp only [disposeDecoration]
  by_cases hd : dId ∈ t.disposed
  · rw [if_pos hd]
  · rw [if_neg hd, removeDecoration_alt]
    by_cases hw : dId ∈ t.wired
    · rw [if_pos hw, removeDecoration_alt]
    · rw [if_neg hw]

theorem disposeMarker_altFlag (dId : Nat) (t : RState) :
    (disposeMarker dId t).altBufferIsActive = t.altBufferIsActive := by
  simp only [disposeMarker]
  by_cases hm : dId ∈ t.markerDisposed
  · rw [if_pos hm]
  · rw [if_neg hm]
    by_cases hw : dId ∈ t.wired
    · rw [if_pos hw, disposeDecoration_altFlag]
    · rw [if_neg hw]

/-- C7: while the alt-buffer flag is set, a refresh pass hides every live
decoration's element (no matter its position); switching the flag off and
running the next refresh pass restores visibility of in-viewport elements
without creating any element (the map, the element-creation counter and
the overlay child list are all reused unchanged); and the flag itself is
recomputed only by buffer-activation events. -/
theorem C7_alt_buffer_suppression (s : RState) (hwf : WF s)
    (halt : s.altBufferIsActive = true) :
    (∀ d ∈ s.live,
      Option.map ElementStyle.display (boundStyle (refreshDecorations s) d.id)
        = some "none") ∧
    ((refreshDecorations (stepEvent (refreshDecorations s)
          (REvent.bufferActivate false))).nextElem = (refreshDecorations s).nextElem ∧
     (refreshDecorations (stepEvent (refreshDecorations s)
          (REvent.bufferActivate false))).decorationElements
        = (refreshDecorations s).decorationElements ∧
     (refreshDecorations (stepEvent (refreshDecorations s)
          (REvent.bufferActivate false))).containerChildren
        = (refreshDecorations s).containerChildren) ∧
    (∀ d ∈ s.live,
      ¬(d.markerLine - s.env.ydisp < 0 ∨ d.markerLine - s.env.ydisp ≥ s.env.rows) →
      Option.map ElementStyle.display
          (boundStyle (refreshDecorations (stepEvent (refreshDecorations s)
            (REvent.bufferActivate false))) d.id)
        = some "block") ∧
    (∀ (t : RState) (e : REvent), (∀ b : Bool, e ≠ REvent.bufferActivate b) →
      (stepEvent t e).altBufferIsActive = t.altBufferIsActive) := by
  have hwf1 : WF (stepEvent (refreshDecorations s) (REvent.bufferActivate false)) :=
    foldl_render_WF s.live s hwf
  have hlive1 : (stepEvent (refreshDecorations s) (REvent.bufferActivate false)).live
      = s.live := refreshDecorations_live s
  have henv1 : (stepEvent (refreshDecorations s) (REvent.bufferActivate false)).env
      = s.env := foldl_render_env s.live s
  have hmapped : ∀ d ∈ (stepEvent (refreshDecorations s)
      (REvent.bufferActivate false)).live,
      (alookup (stepEvent (refreshDecorations s)
        (REvent.bufferActivate false)).decorationElements d.id).isSome := by
    intro d hd
    rw [hlive1] at hd
    exact (alookup_isSome_iff _ _).mpr (foldl_mapDom_mem s.live s d hd)
  refine ⟨?_, ?_, ?_, ?_⟩
  · intro d hd
    obtain ⟨eId, st, he1, he2, he3⟩ := foldMain s.live s hwf hwf.1 d hd
    have hb : boundStyle (refreshDecorations s) d.id = some st := by
      unfold boundStyle refreshDecorations
      rw [he1]
      exact he2
    rw [hb]
    show some st.display = some "none"
    have hdisp := he3.1
    rw [halt, displayAfterRefresh_alt_true] at hdisp
    rw [hdisp]
  · obtain ⟨hm, hn, hc⟩ := foldl_render_no_create _ _ hmapped
    exact ⟨hn, hm, hc⟩
  · intro d hd hin
    have hd1 : d ∈ (stepEvent (refreshDecorations s)
        (REvent.bufferActivate false)).live := by
      rw [hlive1]
      exact hd
    have hnd1 : ((stepEvent (refreshDecorations s)
        (REvent.bufferActivate false)).live.map (·.id)).Nodup := by
      rw [hlive1]
      exact hwf.1
    obtain ⟨eId, st, he1, he2, he3⟩ := foldMain _ _ hwf1 hnd1 d hd1
    have hb : boundStyle (refreshDecorations (stepEvent (refreshDecorations s)
        (REvent.bufferActivate false))) d.id = some st := by
      show boundStyle (List.foldl renderDecoration
        (stepEvent (refreshDecorations s) (REvent.bufferActivate false))
        (stepEvent (refreshDecorations s) (REvent.bufferActivate false)).live) d.id
          = some st
      unfold boundStyle
      rw [he1]
      exact he2
    rw [hb]
    show some st.display = some "block"
    have hdisp := he3.1
    rw [henv1] at hdisp
    have halt1 : (stepEvent (refreshDecorations s)
        (REvent.bufferActivate false)).altBufferIsActive = false := rfl
    rw [halt1] at hdisp
    have hdb : displayAfterRefresh s.env false d.markerLine = "block" := by
      unfold displayAfterRefresh
      rw [if_neg hin]
      decide
    rw [hdisp, hdb]
  · intro t e hne
    cases e with
    | register d2 =>
        simp only [stepEvent]
        by_cases hc : d2.id ∈ liveIds t ∨ d2.id ∈ t.disposed
        · rw [if_pos hc]
        · rw [if_neg hc]
    | disposeDecor dId => exact disposeDecoration_altFlag dId t
    | disposeMarker dId => exact disposeMarker_altFlag dId t
    | refresh => exact foldl_render_altFlag t.live t
    | bufferActivate b => exact absurd rfl (hne b)
    | setYdisp y => rfl

theorem C7_alt_buffer_suppression_witness :
    sampleAlt.altBufferIsActive = true ∧
    Option.map ElementStyle.display (boundStyle (refreshDecorations sampleAlt) 0)
      = some "none" ∧
    ((refreshDecorations (stepEvent (refreshDecorations sampleAlt)
          (REvent.bufferActivate false))).nextElem
        = (refreshDecorations sampleAlt).nextElem ∧
     (refreshDecorations (stepEvent (refreshDecorations sampleAlt)
          (REvent.bufferActivate false))).decorationElements
        = (refreshDecorations sampleAlt).decorationElements ∧
     (refreshDecorations (stepEvent (refreshDecorations sampleAlt)
          (REvent.bufferActivate false))).containerChildren
        = (refreshDecorations sampleAlt).containerChildren) ∧
    Option.map ElementStyle.display
        (boundStyle (refreshDecorations (stepEvent (refreshDecorations sampleAlt)
          (REvent.bufferActivate false))) 0)
      = some "block" :=
  ⟨rfl,
   (C7_alt_buffer_suppression sampleAlt (by decide) rfl).1 sampleDecoration (by decide),
   (C7_alt_buffer_suppression sampleAlt (by decide) rfl).2.1,
   (C7_alt_buffer_suppression sampleAlt (by decide) rfl).2.2.1 sampleDecoration
      (by decide) (by decide)⟩

/-! ### Removal cascade -/

theorem removeDecoration_noop (dId : Nat) (t : RState)
    (h : alookup t.decorationElements dId = none) : removeDecoration dId t = t := by
  unfold removeDecoration
  rw [h, aerase_eq_of_alookup_none t.decorationElements dId h]

theorem removeDecoration_twice (dId : Nat) (t : RState) :
    removeDecoration dId (removeDecoration dId t) = removeDecoration dId t :=
  removeDecoration_noop dId _ (alookup_removeDecoration dId t)

theorem removeDecoration_disposeFired (dId : Nat) (t : RState) :
    (removeDecoration dId t).disposeFired = t.disposeFired := by
  unfold removeDecoration
  cases alookup t.decorationElements dId <;> rfl

theorem removeDecoration_children_of_some (dId : Nat) (t : RState) (eId : Nat)
    (h : alookup t.decorationElements dId = some eId) :
    (removeDecoration dId t).containerChildren
      = t.containerChildren.filter fun e => e != eId := by
  unfold removeDecoration
  rw [h]

theorem disposeMarker_of_markerDisposed (dId : Nat) (t : RState)
    (h : dId ∈ t.markerDisposed) : disposeMarker dId t = t := by
  simp only [disposeMarker]
  rw [if_pos h]

theorem disposeDecoration_eq_of (dId : Nat) (t : RState) (hd : dId ∉ t.disposed)
    (hw : dId ∈ t.wired) :
    disposeDecoration dId t = removeDecoration dId
      { t with
        disposed := dId :: t.disposed
        live := t.live.filter fun d => d.id != dId
        disposeFired :=
          aset t.disposeFired dId ((alookup t.disposeFired dId).getD 0 + 1) } := by
  simp only [disposeDecoration]
  rw [if_neg hd, if_pos hw, removeDecoration_twice]

theorem disposeDecoration_effects (dId : Nat) (t : RState) (eId : Nat)
    (hd : dId ∉ t.disposed) (hw : dId ∈ t.wired)
    (hm : alookup t.decorationElements dId = some eId)
    (hf : alookup t.disposeFired dId = none) :
    (alookup (disposeDecoration dId t).disposeFired dId).getD 0 = 1 ∧
    alookup (disposeDecoration dId t).decorationElements dId = none ∧
    eId ∉ (disposeDecoration dId t).containerChildren ∧
    (disposeDecoration dId t).markerDisposed = t.markerDisposed := by
  rw [disposeDecoration_eq_of dId t hd hw]
  refine ⟨?_, alookup_removeDecoration dId _, ?_, ?_⟩
  · rw [removeDecoration_disposeFired]
    simp [alookup_aset, hf]
  · have hm2 : alookup
        ({ t with
          disposed := dId :: t.disposed
          live := t.live.filter fun d => d.id != dId
          disposeFired :=
            aset t.disposeFired dId ((alookup t.disposeFired dId).getD 0 + 1) }
          : RState).decorationElements dId = some eId := hm
    rw [removeDecoration_children_of_some dId _ eId hm2]
    intro hc
    simp [List.mem_filter] at hc
  · rw [removeDecoration_markerDisposed]

/-- C9: for a decoration that a refresh pass bound to an element (its map
entry exists and its dispose wiring is installed), disposing its marker
fires the decoration's disposal signal exactly once, deletes the map entry
and detaches the element from the overlay surface; a second marker
disposal is a no-op. -/
theorem C9_removal_cascade (s : RState) (dId eId : Nat)
    (hmap : alookup s.decorationElements dId = some eId)
    (hwired : dId ∈ s.wired)
    (hnd : dId ∉ s.disposed) (hnm : dId ∉ s.markerDisposed)
    (hfired : alookup s.disposeFired dId = none) :
    (alookup (disposeMarker dId s).disposeFired dId).getD 0 = 1 ∧
    alookup (disposeMarker dId s).decorationElements dId = none ∧
    eId ∉ (disposeMarker dId s).containerChildren ∧
    disposeMarker dId (disposeMarker dId s) = disposeMarker dId s := by
  have h1 : disposeMarker dId s
      = disposeDecoration dId { s with markerDisposed := dId :: s.markerDisposed } := by
    simp only [disposeMarker]
    rw [if_neg hnm, if_pos hwired]
  have heff := disposeDecoration_effects dId
    { s with markerDisposed := dId :: s.markerDisposed } eId hnd hwired hmap hfired
  rw [h1]
  refine ⟨heff.1, heff.2.1, heff.2.2.1, ?_⟩
  apply disposeMarker_of_markerDisposed
  rw [heff.2.2.2]
  exact List.mem_cons_self _ _

theorem C9_removal_cascade_witness :
    alookup sampleBound.decorationElements 0 = some 0 ∧
    0 ∈ sampleBound.wired ∧
    0 ∉ sampleBound.disposed ∧
    0 ∉ sampleBound.markerDisposed ∧
    alookup sampleBound.disposeFired 0 = none ∧
    ((alookup (disposeMarker 0 sampleBound).disposeFired 0).getD 0 = 1 ∧
     alookup (disposeMarker 0 sampleBound).decorationElements 0 = none ∧
     0 ∉ (disposeMarker 0 sampleBound).containerChildren ∧
     disposeMarker 0 (disposeMarker 0 sampleBound) = disposeMarker 0 sampleBound) :=
  ⟨by decide, by decide, by decide, by decide, by decide,
   C9_removal_cascade sampleBound 0 0 (by decide) (by decide) (by decide)
      (by decide) (by decide)⟩

end BufferDecorationRenderer
